import Mathlib

/-!
Verification of the zoekt dynamic index server
(cmd/zoekt-dynamic-indexserver/main.go).

The Go program is shallowly embedded: filesystem paths are modeled as
component lists tagged absolute/relative, the filesystem touched by the
truncate endpoint is a finite tree, external command launches are recorded as
an invocation trace, and the strict JSON decoding of the index endpoint is
modeled over an inductive JSON value type.  Environmental effects (the result
of os.Getwd used by filepath.Abs, the outcome of each subprocess, paths whose
removal fails) are passed in as explicit parameters, so every function is a
pure, executable translation of the corresponding Go function.
-/

set_option autoImplicit false

namespace ZoektDynamicIndexServer

/-! ### Paths

A Go filesystem path, kept in cleaned, structured form: an absolute/relative
flag plus the list of path components.  The program only ever builds paths by
joining a configured directory with a single child name, so filepath.Join is
exactly appending one component and rendering to the Go string form is
intercalating the components with slashes. -/

structure GoPath where
  isAbs : Bool
  comps : List String
deriving DecidableEq

/-- filepath.Join of a directory with one child name. -/
def filepathJoin (p : GoPath) (name : String) : GoPath :=
  { p with comps := p.comps ++ [name] }

/-- Rendering of a (cleaned) path to the Go string passed on command lines. -/
def pathToString (p : GoPath) : String :=
  (if p.isAbs then "/" else "") ++ String.intercalate "/" p.comps

/-- The process environment seen by filepath.Abs: the result of os.Getwd,
which either yields the absolute working directory's components or fails
(for example when the working directory has been removed). -/
structure Env where
  getwd : Except String (List String)

/-- filepath.Abs: an absolute path is returned as is (the inputs built by the
program are already clean), a relative path is resolved against the working
directory; the only failure mode is os.Getwd failing. -/
def filepathAbs (env : Env) (p : GoPath) : Except String GoPath :=
  if p.isAbs then .ok p
  else
    match env.getwd with
    | .error e => .error e
    | .ok w => .ok ⟨true, w ++ p.comps⟩

/-! ### Options and requests -/

/-- The Options struct of the program (dataDir omitted: unused after
parseOptions; listen omitted: consumed only by the HTTP listener). -/
structure Options where
  indexTimeout : Nat
  indexDir : GoPath
  repoDir : GoPath

/-- The indexRequest struct.  RepoID is a uint32; the JSON decoder below only
produces values below 2^32. -/
structure indexRequest where
  CloneURL : String
  RepoID : Nat
deriving DecidableEq

/-! ### Command execution

context.WithTimeout produces a context whose deadline is the creation instant
plus the timeout; exec.CommandContext refuses to start the subprocess once the
context's deadline has passed. -/

/-- A context produced by context.WithTimeout: just its deadline. -/
structure Ctx where
  deadline : Nat
deriving DecidableEq

/-- Whether the context is already cancelled (its Done channel closed) at
instant t: true once the deadline has been reached. -/
def ctxDone (c : Ctx) (t : Nat) : Bool :=
  c.deadline ≤ t

/-- Models os/exec: a command run under a context starts its subprocess iff
the context is not yet done at start time. -/
def cmdStarts (c : Ctx) (t : Nat) : Bool :=
  ! ctxDone c t

/-- Outcome of one subprocess run, supplied by the environment: the process
failed to start, or exited with the given code and captured output. -/
inductive RunOutcome where
  | startFailure (msg : String)
  | exited (code : Nat) (out err : String)

def runFailed : RunOutcome → Bool
  | .startFailure _ => true
  | .exited code _ _ => code != 0

def outcomeOut : RunOutcome → String
  | .startFailure _ => ""
  | .exited _ out _ => out

def outcomeErr : RunOutcome → String
  | .startFailure _ => ""
  | .exited _ _ err => err

def outcomeMsg : RunOutcome → String
  | .startFailure msg => msg
  | .exited code _ _ => "exit status " ++ toString code

/-- loggedRun: logs the argument vector, runs the command, and on failure logs
a second line with the error and the captured streams; it returns only the
captured stdout and stderr, never an error value. -/
def loggedRun (args : List String) (o : RunOutcome) : List String × String × String :=
  let logs :=
    ["run " ++ toString args] ++
      (if runFailed o then
        ["command " ++ toString args ++ " failed: " ++ outcomeMsg o ++
          "\nOUT: " ++ outcomeOut o ++ "\nERR: " ++ outcomeErr o]
      else [])
  (logs, outcomeOut o, outcomeErr o)

/-- One recorded external invocation: the context it was given, the program
name and the argument vector. -/
structure Invocation where
  ctx : Ctx
  name : String
  args : List String
deriving DecidableEq

/-- executeCmd: builds the command under the given context with empty stdin
and hands it to loggedRun.  It returns the recorded invocation and the log
lines; like the Go function it has no error result. -/
def executeCmd (ctx : Ctx) (name : String) (args : List String) (o : RunOutcome) :
    Invocation × List String :=
  (⟨ctx, name, args⟩, (loggedRun (name :: args) o).1)

/-! ### HTTP responses -/

/-- An HTTP response as produced by the handlers: a handler that returns
without writing produces 200 with empty body; http.Error produces the given
status with the message as body. -/
structure Response where
  status : Nat
  body : String
deriving DecidableEq

/-! ### The pipeline driver -/

/-- indexRepository: creates one context with deadline start + indexTimeout,
runs the clone stage, resolves the absolute bare-repository path (answering
400 and stopping if that fails), then runs the fetch and index-build stages
under the same context.  start is the instant of entry; oracle i is the
environment-supplied outcome of the i-th subprocess.  Returns the invocation
trace and the error response, if any, written to the ResponseWriter. -/
def indexRepository (env : Env) (opts : Options) (req : indexRequest)
    (start : Nat) (oracle : Nat → RunOutcome) :
    List Invocation × Option Response :=
  let ctx : Ctx := ⟨start + opts.indexTimeout⟩
  let cloneArgs :=
    ["-dest", pathToString opts.repoDir,
     "-name", toString req.RepoID,
     "-repoid", toString req.RepoID,
     req.CloneURL]
  let i1 := (executeCmd ctx "zoekt-git-clone" cloneArgs (oracle 0)).1
  match filepathAbs env (filepathJoin opts.repoDir (toString req.RepoID ++ ".git")) with
  | .error _ => ([i1], some ⟨400, "JSON parser error"⟩)
  | .ok gitRepoPath =>
    let i2 := (executeCmd ctx "git" ["-C", pathToString gitRepoPath, "fetch"] (oracle 1)).1
    let i3 := (executeCmd ctx "zoekt-git-index"
      ["-index", pathToString opts.indexDir, pathToString gitRepoPath] (oracle 2)).1
    ([i1, i2, i3], none)

/-! ### JSON and strict decoding

A JSON value; numbers are modeled as integers, which covers every numeric
payload the uint32 field can legally receive (a fractional number is decoded
by Go with an error, like any other non-integer payload for a uint32 field,
and is subsumed here by the non-num cases). -/

inductive Json where
  | null
  | bool (b : Bool)
  | num (n : Int)
  | str (s : String)
  | arr (elems : List Json)
  | obj (fields : List (String × Json))

def lowerChar (c : Char) : Char :=
  if 'A' ≤ c ∧ c ≤ 'Z' then Char.ofNat (c.toNat + 32) else c

/-- ASCII lowercasing, which on the ASCII field names of indexRequest agrees
with the Unicode case folding Go uses for field matching. -/
def lowerString (s : String) : String :=
  ⟨s.data.map lowerChar⟩

/-- Go JSON field matching: a key matches a struct field name exactly or
case-insensitively. -/
def fieldMatches (key field : String) : Bool :=
  key == field || lowerString key == lowerString field

/-- Decoding one object member into the struct, with DisallowUnknownFields:
a key matching neither field is an error; a null value leaves the field
unchanged; a matching key with a wrong-typed value is an error; a RepoID
outside uint32 range is an error. -/
def applyField (r : indexRequest) (kv : String × Json) : Except String indexRequest :=
  if fieldMatches kv.1 "CloneURL" then
    match kv.2 with
    | .null => .ok r
    | .str s => .ok { r with CloneURL := s }
    | _ => .error "cannot unmarshal into field CloneURL of type string"
  else if fieldMatches kv.1 "RepoID" then
    match kv.2 with
    | .null => .ok r
    | .num n =>
      if 0 ≤ n ∧ n < 4294967296 then .ok { r with RepoID := n.toNat }
      else .error "cannot unmarshal number into field RepoID of type uint32"
    | _ => .error "cannot unmarshal into field RepoID of type uint32"
  else .error ("unknown field " ++ kv.1)

def decodeFields : indexRequest → List (String × Json) → Except String indexRequest
  | r, [] => .ok r
  | r, kv :: rest =>
    match applyField r kv with
    | .error e => .error e
    | .ok r2 => decodeFields r2 rest

/-- Decoder.Decode with DisallowUnknownFields into an indexRequest value.
none models a body that is not well-formed JSON (including an empty body).
The JSON literal null decodes into a struct as a no-op, yielding the zero
value; any other non-object top-level value is a type error; an object is
decoded member by member, later duplicates overwriting earlier ones. -/
def decodeIndexRequest : Option Json → Except String indexRequest
  | none => .error "invalid JSON"
  | some .null => .ok ⟨"", 0⟩
  | some (.obj fields) => decodeFields ⟨"", 0⟩ fields
  | some _ => .error "cannot unmarshal into indexRequest"

/-- serveIndex: strictly decode the body; on failure answer 400 with body
JSON parser error and run nothing; on success run the pipeline driver and
answer 200 with empty body unless the driver wrote an error response. -/
def serveIndex (env : Env) (opts : Options) (start : Nat) (oracle : Nat → RunOutcome)
    (body : Option Json) : Response × List Invocation :=
  match decodeIndexRequest body with
  | .error _ => (⟨400, "JSON parser error"⟩, [])
  | .ok req =>
    match indexRepository env opts req start oracle with
    | (trace, some resp) => (resp, trace)
    | (trace, none) => (⟨200, ""⟩, trace)

/-! ### Filesystem model

The filesystem visible to the truncate endpoint: a tree of named entries.
A directory holds a listing of (name, node) pairs in listing order. -/

inductive FsNode where
  | file
  | dir (children : List (String × FsNode))

/-- Filesystem state: the tree rooted at /, the working directory against
which the kernel resolves relative paths, and the set of (resolved) paths
whose removal fails, modeling permission errors of os.RemoveAll. -/
structure FsState where
  root : FsNode
  wd : List String
  stuck : List (List String)

/-- Kernel path resolution of a GoPath against the state. -/
def resolve (s : FsState) (p : GoPath) : List String :=
  if p.isAbs then p.comps else s.wd ++ p.comps

def findEntry (a : String) : List (String × FsNode) → Option FsNode
  | [] => none
  | e :: es => if e.1 = a then some e.2 else findEntry a es

/-- Navigate the tree along a resolved component path. -/
def lookupNode : FsNode → List String → Option FsNode
  | t, [] => some t
  | .file, _ :: _ => none
  | .dir cs, a :: rest =>
    match findEntry a cs with
    | none => none
    | some u => lookupNode u rest

/-- Drop every entry with the given name from a listing. -/
def eraseKey (a : String) : List (String × FsNode) → List (String × FsNode)
  | [] => []
  | e :: es => if e.1 = a then eraseKey a es else e :: eraseKey a es

/-- Remove the node at the given resolved path from the tree (a no-op when
the path does not exist, like os.RemoveAll). -/
def removeNode : FsNode → List String → FsNode
  | t, [] => t
  | .file, _ :: _ => .file
  | .dir cs, [a] => .dir (eraseKey a cs)
  | .dir cs, a :: b :: rest =>
    .dir (cs.map fun e => if e.1 = a then (e.1, removeNode e.2 (b :: rest)) else e)

/-- ioutil.ReadDir: the child names of the directory at the path, or an error
when the path does not name an existing directory. -/
def readDir (s : FsState) (p : GoPath) : Except String (List String) :=
  match lookupNode s.root (resolve s p) with
  | some (.dir cs) => .ok (cs.map Prod.fst)
  | _ => .error "readDir failed"

/-- os.RemoveAll: fails (leaving the state unchanged) on a stuck path,
otherwise removes the subtree at the path. -/
def removeAllFs (s : FsState) (p : GoPath) : Except String Unit × FsState :=
  if resolve s p ∈ s.stuck then (.error "removeAll failed", s)
  else (.ok (), { s with root := removeNode s.root (resolve s p) })

/-- The removal loop of emptyDirectory over the listed child names, stopping
at the first failed removal. -/
def emptyDirLoop (dirPath : GoPath) : FsState → List String → Except String Unit × FsState
  | s, [] => (.ok (), s)
  | s, f :: rest =>
    match removeAllFs s (filepathJoin dirPath f) with
    | (.error e, s2) => (.error e, s2)
    | (.ok _, s2) => emptyDirLoop dirPath s2 rest

/-- emptyDirectory: list the directory (propagating a listing error), then
remove each listed child in order, propagating the first removal error. -/
def emptyDirectory (s : FsState) (dirPath : GoPath) : Except String Unit × FsState :=
  match readDir s dirPath with
  | .error e => (.error e, s)
  | .ok files => emptyDirLoop dirPath s files

/-- serveTruncate: empty the repo directory, then the index directory; the
first failure is answered with 500 and a body naming the directory and stops
the handler; success of both is answered with 200 and empty body. -/
def serveTruncate (opts : Options) (s : FsState) : Response × FsState :=
  match emptyDirectory s opts.repoDir with
  | (.error _, s1) => (⟨500, "Failed to delete repoDir"⟩, s1)
  | (.ok _, s1) =>
    match emptyDirectory s1 opts.indexDir with
    | (.error _, s2) => (⟨500, "Failed to delete indexDir"⟩, s2)
    | (.ok _, s2) => (⟨200, ""⟩, s2)

/-! ### The HTTP surface -/

/-- An inbound HTTP request: method, path, and (for the index endpoint) the
parsed JSON body, none when the body is not well-formed JSON. -/
structure HttpRequest where
  method : String
  path : String
  reqBody : Option Json

/-- startIndexingApi: the two handler registrations on the default mux.
http.HandleFunc patterns match the exact path and impose no method filter;
an unregistered path is answered by the mux with 404.  Returns the response,
the invocation trace of the pipeline, and the filesystem state after the
request. -/
def startIndexingApi (env : Env) (opts : Options) (start : Nat)
    (oracle : Nat → RunOutcome) (s : FsState) (r : HttpRequest) :
    Response × List Invocation × FsState :=
  if r.path = "/index" then
    let res := serveIndex env opts start oracle r.reqBody
    (res.1, res.2, s)
  else if r.path = "/truncate" then
    let res := serveTruncate opts s
    (res.1, [], res.2)
  else (⟨404, "404 page not found"⟩, [], s)

/-! ### Ancestor relation on resolved paths -/

/-- p is an ancestor of, or equal to, q: q extends p. -/
def ancestorOf (p q : List String) : Prop :=
  ∃ r, p ++ r = q

/-! ### Helper lemmas about the pipeline driver -/

theorem indexRepository_abs_ok_eq (env : Env) (opts : Options) (req : indexRequest)
    (start : Nat) (oracle : Nat → RunOutcome) (g : GoPath)
    (habs : filepathAbs env (filepathJoin opts.repoDir (toString req.RepoID ++ ".git")) = .ok g) :
    indexRepository env opts req start oracle =
      ([⟨⟨start + opts.indexTimeout⟩, "zoekt-git-clone",
          ["-dest", pathToString opts.repoDir, "-name", toString req.RepoID,
           "-repoid", toString req.RepoID, req.CloneURL]⟩,
        ⟨⟨start + opts.indexTimeout⟩, "git", ["-C", pathToString g, "fetch"]⟩,
        ⟨⟨start + opts.indexTimeout⟩, "zoekt-git-index",
          ["-index", pathToString opts.indexDir, pathToString g]⟩],
       none) := by
  unfold indexRepository
  rw [habs]
  rfl

theorem indexRepository_abs_error_eq (env : Env) (opts : Options) (req : indexRequest)
    (start : Nat) (oracle : Nat → RunOutcome) (e : String)
    (habs : filepathAbs env (filepathJoin opts.repoDir (toString req.RepoID ++ ".git")) =
      .error e) :
    indexRepository env opts req start oracle =
      ([⟨⟨start + opts.indexTimeout⟩, "zoekt-git-clone",
          ["-dest", pathToString opts.repoDir, "-name", toString req.RepoID,
           "-repoid", toString req.RepoID, req.CloneURL]⟩],
       some ⟨400, "JSON parser error"⟩) := by
  unfold indexRepository
  rw [habs]
  rfl

theorem serveIndex_decode_ok_abs_ok_eq (env : Env) (opts : Options) (start : Nat)
    (oracle : Nat → RunOutcome) (body : Option Json) (req : indexRequest) (g : GoPath)
    (hdec : decodeIndexRequest body = .ok req)
    (habs : filepathAbs env (filepathJoin opts.repoDir (toString req.RepoID ++ ".git")) = .ok g) :
    serveIndex env opts start oracle body =
      (⟨200, ""⟩,
       [⟨⟨start + opts.indexTimeout⟩, "zoekt-git-clone",
          ["-dest", pathToString opts.repoDir, "-name", toString req.RepoID,
           "-repoid", toString req.RepoID, req.CloneURL]⟩,
        ⟨⟨start + opts.indexTimeout⟩, "git", ["-C", pathToString g, "fetch"]⟩,
        ⟨⟨start + opts.indexTimeout⟩, "zoekt-git-index",
          ["-index", pathToString opts.indexDir, pathToString g]⟩]) := by
  simp only [serveIndex, hdec, indexRepository_abs_ok_eq env opts req start oracle g habs]

theorem serveIndex_decode_ok_abs_error_eq (env : Env) (opts : Options) (start : Nat)
    (oracle : Nat → RunOutcome) (body : Option Json) (req : indexRequest) (e : String)
    (hdec : decodeIndexRequest body = .ok req)
    (habs : filepathAbs env (filepathJoin opts.repoDir (toString req.RepoID ++ ".git")) =
      .error e) :
    serveIndex env opts start oracle body =
      (⟨400, "JSON parser error"⟩,
       [⟨⟨start + opts.indexTimeout⟩, "zoekt-git-clone",
          ["-dest", pathToString opts.repoDir, "-name", toString req.RepoID,
           "-repoid", toString req.RepoID, req.CloneURL]⟩]) := by
  simp only [serveIndex, hdec, indexRepository_abs_error_eq env opts req start oracle e habs]

theorem serveIndex_decode_error_eq (env : Env) (opts : Options) (start : Nat)
    (oracle : Nat → RunOutcome) (body : Option Json) (e : String)
    (hdec : decodeIndexRequest body = .error e) :
    serveIndex env opts start oracle body = (⟨400, "JSON parser error"⟩, []) := by
  unfold serveIndex
  rw [hdec]

/-! ### Claim theorems for the pipeline and the index endpoint -/

/-- Claim C1: for every well-formed IndexRequest, any repoDir and indexDir,
whenever the absolute repository path resolves, indexRepository issues exactly
three invocations, in the order clone, fetch, index-build, with exactly the
argument vectors of the source (RepoID rendered in decimal) and the same
derived repository path threaded into the second and third calls. -/
theorem indexRepository_issues_three_stages (env : Env) (opts : Options)
    (req : indexRequest) (start : Nat) (oracle : Nat → RunOutcome) (g : GoPath)
    (habs : filepathAbs env (filepathJoin opts.repoDir (toString req.RepoID ++ ".git")) = .ok g) :
    (indexRepository env opts req start oracle).1 =
      [⟨⟨start + opts.indexTimeout⟩, "zoekt-git-clone",
         ["-dest", pathToString opts.repoDir, "-name", toString req.RepoID,
          "-repoid", toString req.RepoID, req.CloneURL]⟩,
       ⟨⟨start + opts.indexTimeout⟩, "git", ["-C", pathToString g, "fetch"]⟩,
       ⟨⟨start + opts.indexTimeout⟩, "zoekt-git-index",
         ["-index", pathToString opts.indexDir, pathToString g]⟩] := by
  rw [indexRepository_abs_ok_eq env opts req start oracle g habs]

/-- Witness for C1: the example of the specification, with repoDir /repo_dir,
indexDir /index_dir, RepoID 100 and the example clone URL. -/
theorem indexRepository_issues_three_stages_witness :
    (indexRepository ⟨.ok []⟩ ⟨3600, ⟨true, ["index_dir"]⟩, ⟨true, ["repo_dir"]⟩⟩
        ⟨"https://example.com/repository.git", 100⟩ 0 (fun _ => .exited 0 "" "")).1 =
      [⟨⟨3600⟩, "zoekt-git-clone",
         ["-dest", "/repo_dir", "-name", "100", "-repoid", "100",
          "https://example.com/repository.git"]⟩,
       ⟨⟨3600⟩, "git", ["-C", "/repo_dir/100.git", "fetch"]⟩,
       ⟨⟨3600⟩, "zoekt-git-index", ["-index", "/index_dir", "/repo_dir/100.git"]⟩] :=
  indexRepository_issues_three_stages ⟨.ok []⟩ ⟨3600, ⟨true, ["index_dir"]⟩, ⟨true, ["repo_dir"]⟩⟩
    ⟨"https://example.com/repository.git", 100⟩ 0 (fun _ => .exited 0 "" "")
    ⟨true, ["repo_dir", "100.git"]⟩ rfl

/-- Claim C2: loggedRun always returns just the captured stdout and stderr,
never an error value; the invocation trace and the written response of the
pipeline do not depend on the subprocess outcomes (so a failed stage does not
stop the following stages and their argument vectors are unchanged); and when
the path resolves, the index endpoint answers 200 whatever the outcomes. -/
theorem command_failures_not_propagated :
    (∀ (args : List String) (o : RunOutcome),
        (loggedRun args o).2 = (outcomeOut o, outcomeErr o))
    ∧ (∀ (env : Env) (opts : Options) (req : indexRequest) (start : Nat)
        (o o2 : Nat → RunOutcome),
        indexRepository env opts req start o = indexRepository env opts req start o2)
    ∧ (∀ (env : Env) (opts : Options) (start : Nat) (o : Nat → RunOutcome)
        (body : Option Json) (req : indexRequest) (g : GoPath),
        decodeIndexRequest body = .ok req →
        filepathAbs env (filepathJoin opts.repoDir (toString req.RepoID ++ ".git")) = .ok g →
        (serveIndex env opts start o body).1 = ⟨200, ""⟩) := by
  refine ⟨fun args o => rfl, fun env opts req start o o2 => ?_, ?_⟩
  · unfold indexRepository
    cases habs : filepathAbs env (filepathJoin opts.repoDir (toString req.RepoID ++ ".git")) <;>
      simp [executeCmd]
  · intro env opts start o body req g hdec habs
    rw [serveIndex_decode_ok_abs_ok_eq env opts start o body req g hdec habs]

/-- Witness for C2: with an oracle that makes every subprocess fail to start,
the index endpoint still answers 200. -/
theorem command_failures_not_propagated_witness :
    (serveIndex ⟨.ok []⟩ ⟨3600, ⟨true, ["index_dir"]⟩, ⟨true, ["repo_dir"]⟩⟩ 0
        (fun _ => .startFailure "executable file not found")
        (some (.obj []))).1 = ⟨200, ""⟩ :=
  command_failures_not_propagated.2.2 ⟨.ok []⟩
    ⟨3600, ⟨true, ["index_dir"]⟩, ⟨true, ["repo_dir"]⟩⟩ 0
    (fun _ => .startFailure "executable file not found") (some (.obj [])) ⟨"", 0⟩
    ⟨true, ["repo_dir", "0.git"]⟩ rfl rfl

/-- Counterexample for C3: the body consisting of the JSON literal null is
well-formed JSON but not a JSON object, yet the handler does not answer 400:
strict decoding accepts null as a no-op, the full pipeline runs, and the
response is 200. -/
theorem serveIndex_null_body_counterexample :
    decodeIndexRequest (some .null) = .ok ⟨"", 0⟩ ∧
    (serveIndex ⟨.ok []⟩ ⟨3600, ⟨true, ["index_dir"]⟩, ⟨true, ["repo_dir"]⟩⟩ 0
        (fun _ => .exited 0 "" "") (some .null)).1 = ⟨200, ""⟩ ∧
    (serveIndex ⟨.ok []⟩ ⟨3600, ⟨true, ["index_dir"]⟩, ⟨true, ["repo_dir"]⟩⟩ 0
        (fun _ => .exited 0 "" "") (some .null)).2.length = 3 :=
  ⟨rfl, rfl, rfl⟩

/-- Claim C3 as amended: every body on which strict decoding fails (malformed
JSON, a top-level value other than an object or null — bool, number, string
or array —, or an object with an unrecognized field) is answered with 400 and
body JSON parser error with no pipeline stage invoked; every body that
decodes (a matching object, or null which yields the zero value) invokes the
pipeline and, provided path resolution succeeds, is answered with 200. -/
theorem serveIndex_strict_decoding :
    (∀ (env : Env) (opts : Options) (start : Nat) (oracle : Nat → RunOutcome)
        (body : Option Json) (e : String),
        decodeIndexRequest body = .error e →
        serveIndex env opts start oracle body = (⟨400, "JSON parser error"⟩, []))
    ∧ (∀ (k : String) (v : Json), fieldMatches k "CloneURL" = false →
        fieldMatches k "RepoID" = false →
        decodeIndexRequest (some (.obj [(k, v)])) = .error ("unknown field " ++ k))
    ∧ (∀ b, decodeIndexRequest (some (.bool b)) = .error "cannot unmarshal into indexRequest")
    ∧ (∀ n, decodeIndexRequest (some (.num n)) = .error "cannot unmarshal into indexRequest")
    ∧ (∀ s, decodeIndexRequest (some (.str s)) = .error "cannot unmarshal into indexRequest")
    ∧ (∀ xs, decodeIndexRequest (some (.arr xs)) = .error "cannot unmarshal into indexRequest")
    ∧ decodeIndexRequest none = .error "invalid JSON"
    ∧ (∀ (env : Env) (opts : Options) (start : Nat) (oracle : Nat → RunOutcome)
        (body : Option Json) (req : indexRequest) (g : GoPath),
        decodeIndexRequest body = .ok req →
        filepathAbs env (filepathJoin opts.repoDir (toString req.RepoID ++ ".git")) = .ok g →
        (serveIndex env opts start oracle body).1 = ⟨200, ""⟩ ∧
        (serveIndex env opts start oracle body).2 ≠ []) := by
  refine ⟨?_, ?_, fun b => rfl, fun n => rfl, fun s => rfl, fun xs => rfl, rfl, ?_⟩
  · intro env opts start oracle body e hdec
    exact serveIndex_decode_error_eq env opts start oracle body e hdec
  · intro k v h1 h2
    simp [decodeIndexRequest, decodeFields, applyField, h1, h2]
  · intro env opts start oracle body req g hdec habs
    rw [serveIndex_decode_ok_abs_ok_eq env opts start oracle body req g hdec habs]
    exact ⟨rfl, by simp⟩

/-- Witness for C3 (amended): a body with one unrecognized field is answered
with 400, body JSON parser error, and no invocation. -/
theorem serveIndex_strict_decoding_witness :
    serveIndex ⟨.ok []⟩ ⟨3600, ⟨true, ["index_dir"]⟩, ⟨true, ["repo_dir"]⟩⟩ 0
        (fun _ => .exited 0 "" "") (some (.obj [("Extra", .num 1)])) =
      (⟨400, "JSON parser error"⟩, []) :=
  serveIndex_strict_decoding.1 ⟨.ok []⟩ ⟨3600, ⟨true, ["index_dir"]⟩, ⟨true, ["repo_dir"]⟩⟩ 0
    (fun _ => .exited 0 "" "") (some (.obj [("Extra", .num 1)])) "unknown field Extra" rfl

/-- Claim C4: when resolving the absolute repository path fails (the
configured repoDir is relative and the working directory lookup fails), the
handler answers 400 and the pipeline stops after the clone stage: neither the
git fetch invocation nor the index-build invocation is issued. -/
theorem serveIndex_abs_failure_aborts (env : Env) (opts : Options) (start : Nat)
    (oracle : Nat → RunOutcome) (body : Option Json) (req : indexRequest) (e : String)
    (hdec : decodeIndexRequest body = .ok req)
    (hrel : opts.repoDir.isAbs = false) (hwd : env.getwd = .error e) :
    (serveIndex env opts start oracle body).1.status = 400 ∧
    (serveIndex env opts start oracle body).2 =
      [⟨⟨start + opts.indexTimeout⟩, "zoekt-git-clone",
         ["-dest", pathToString opts.repoDir, "-name", toString req.RepoID,
          "-repoid", toString req.RepoID, req.CloneURL]⟩] := by
  have habs : filepathAbs env (filepathJoin opts.repoDir (toString req.RepoID ++ ".git")) =
      .error e := by
    unfold filepathAbs filepathJoin
    simp [hrel, hwd]
  rw [serveIndex_decode_ok_abs_error_eq env opts start oracle body req e hdec habs]
  exact ⟨rfl, rfl⟩

/-- Witness for C4: a relative repoDir together with a failed working
directory lookup yields 400 and a trace holding only the clone stage. -/
theorem serveIndex_abs_failure_aborts_witness :
    (serveIndex ⟨.error "getwd: no such file or directory"⟩
        ⟨3600, ⟨true, ["index_dir"]⟩, ⟨false, ["repo_dir"]⟩⟩ 0
        (fun _ => .exited 0 "" "") (some (.obj []))).1.status = 400 ∧
    (serveIndex ⟨.error "getwd: no such file or directory"⟩
        ⟨3600, ⟨true, ["index_dir"]⟩, ⟨false, ["repo_dir"]⟩⟩ 0
        (fun _ => .exited 0 "" "") (some (.obj []))).2 =
      [⟨⟨3600⟩, "zoekt-git-clone", ["-dest", "repo_dir", "-name", "0", "-repoid", "0", ""]⟩] :=
  serveIndex_abs_failure_aborts ⟨.error "getwd: no such file or directory"⟩
    ⟨3600, ⟨true, ["index_dir"]⟩, ⟨false, ["repo_dir"]⟩⟩ 0 (fun _ => .exited 0 "" "")
    (some (.obj [])) ⟨"", 0⟩ "getwd: no such file or directory" rfl rfl rfl

/-- Claim C7: every invocation of one pipeline run carries the single context
created at pipeline entry, whose deadline is the entry instant plus
indexTimeout — the deadline is shared and never reset between stages — and a
stage invoked at or after the deadline observes a cancelled context, under
which the subprocess does not start. -/
theorem pipeline_single_deadline (env : Env) (opts : Options) (req : indexRequest)
    (start : Nat) (oracle : Nat → RunOutcome) :
    (∀ inv ∈ (indexRepository env opts req start oracle).1,
        inv.ctx = ⟨start + opts.indexTimeout⟩)
    ∧ (∀ inv ∈ (indexRepository env opts req start oracle).1, ∀ t : Nat,
        start + opts.indexTimeout ≤ t → cmdStarts inv.ctx t = false) := by
  have key : ∀ inv ∈ (indexRepository env opts req start oracle).1,
      inv.ctx = ⟨start + opts.indexTimeout⟩ := by
    intro inv hmem
    cases habs : filepathAbs env (filepathJoin opts.repoDir (toString req.RepoID ++ ".git")) with
    | error e =>
      rw [indexRepository_abs_error_eq env opts req start oracle e habs] at hmem
      simp at hmem
      rw [hmem]
    | ok g =>
      rw [indexRepository_abs_ok_eq env opts req start oracle g habs] at hmem
      simp at hmem
      rcases hmem with h | h | h <;> rw [h]
  refine ⟨key, fun inv hmem t ht => ?_⟩
  rw [key inv hmem]
  simp [cmdStarts, ctxDone, ht]

/-- Witness for C7: in the example run the fetch stage carries the entry
context with deadline 3600, and at instant 5000 that context is cancelled, so
the subprocess does not start. -/
theorem pipeline_single_deadline_witness :
    cmdStarts (Invocation.mk ⟨3600⟩ "git" ["-C", "/repo_dir/100.git", "fetch"]).ctx 5000 =
      false :=
  (pipeline_single_deadline ⟨.ok []⟩ ⟨3600, ⟨true, ["index_dir"]⟩, ⟨true, ["repo_dir"]⟩⟩
      ⟨"https://example.com/repository.git", 100⟩ 0 (fun _ => .exited 0 "" "")).2
    ⟨⟨3600⟩, "git", ["-C", "/repo_dir/100.git", "fetch"]⟩ (by decide) 5000 (by decide)

/-- Claim C9: strict decoding rejects only unknown fields and malformed
bodies, not missing fields: an empty object, or one omitting CloneURL or
RepoID, decodes to the zero values, and on the empty object the full
three-stage pipeline runs against repoDir/0.git with an empty clone URL. -/
theorem decode_missing_fields_zero_values :
    decodeIndexRequest (some (.obj [])) = .ok ⟨"", 0⟩
    ∧ (∀ u, decodeIndexRequest (some (.obj [("CloneURL", .str u)])) = .ok ⟨u, 0⟩)
    ∧ (∀ n : Int, 0 ≤ n → n < 4294967296 →
        decodeIndexRequest (some (.obj [("RepoID", .num n)])) = .ok ⟨"", n.toNat⟩)
    ∧ (∀ (env : Env) (opts : Options) (start : Nat) (oracle : Nat → RunOutcome) (g : GoPath),
        filepathAbs env (filepathJoin opts.repoDir (toString (0 : Nat) ++ ".git")) = .ok g →
        serveIndex env opts start oracle (some (.obj [])) =
          (⟨200, ""⟩,
           [⟨⟨start + opts.indexTimeout⟩, "zoekt-git-clone",
              ["-dest", pathToString opts.repoDir, "-name", toString (0 : Nat),
               "-repoid", toString (0 : Nat), ""]⟩,
            ⟨⟨start + opts.indexTimeout⟩, "git", ["-C", pathToString g, "fetch"]⟩,
            ⟨⟨start + opts.indexTimeout⟩, "zoekt-git-index",
              ["-index", pathToString opts.indexDir, pathToString g]⟩])) := by
  refine ⟨rfl, fun u => rfl, fun n h0 h1 => ?_, fun env opts start oracle g habs => ?_⟩
  · have hm1 : fieldMatches "RepoID" "CloneURL" = false := rfl
    have hm2 : fieldMatches "RepoID" "RepoID" = true := rfl
    simp [decodeIndexRequest, decodeFields, applyField, hm1, hm2, h0, h1]
  · exact serveIndex_decode_ok_abs_ok_eq env opts start oracle (some (.obj [])) ⟨"", 0⟩ g
      rfl habs

/-- Witness for C9: a body omitting both fields runs the pipeline against
/repo_dir/0.git with an empty clone URL, and RepoID 7 decodes as 7. -/
theorem decode_missing_fields_zero_values_witness :
    decodeIndexRequest (some (.obj [("RepoID", .num 7)])) = .ok ⟨"", 7⟩ ∧
    serveIndex ⟨.ok []⟩ ⟨3600, ⟨true, ["index_dir"]⟩, ⟨true, ["repo_dir"]⟩⟩ 0
        (fun _ => .exited 0 "" "") (some (.obj [])) =
      (⟨200, ""⟩,
       [⟨⟨3600⟩, "zoekt-git-clone", ["-dest", "/repo_dir", "-name", "0", "-repoid", "0", ""]⟩,
        ⟨⟨3600⟩, "git", ["-C", "/repo_dir/0.git", "fetch"]⟩,
        ⟨⟨3600⟩, "zoekt-git-index", ["-index", "/index_dir", "/repo_dir/0.git"]⟩]) :=
  ⟨decode_missing_fields_zero_values.2.2.1 7 (by decide) (by decide),
   decode_missing_fields_zero_values.2.2.2 ⟨.ok []⟩
     ⟨3600, ⟨true, ["index_dir"]⟩, ⟨true, ["repo_dir"]⟩⟩ 0 (fun _ => .exited 0 "" "")
     ⟨true, ["repo_dir", "0.git"]⟩ rfl⟩

/-- Claim C10: neither handler inspects the HTTP method: a request is handled
identically whatever its method, and any request to the truncate path — for
example a GET — performs exactly the truncation of the two managed
directories. -/
theorem handlers_ignore_http_method :
    (∀ (env : Env) (opts : Options) (start : Nat) (oracle : Nat → RunOutcome)
        (s : FsState) (m m2 p : String) (b : Option Json),
        startIndexingApi env opts start oracle s ⟨m, p, b⟩ =
          startIndexingApi env opts start oracle s ⟨m2, p, b⟩)
    ∧ (∀ (env : Env) (opts : Options) (start : Nat) (oracle : Nat → RunOutcome)
        (s : FsState) (m : String) (b : Option Json),
        startIndexingApi env opts start oracle s ⟨m, "/truncate", b⟩ =
          ((serveTruncate opts s).1, [], (serveTruncate opts s).2)) := by
  constructor
  · intro env opts start oracle s m m2 p b
    rfl
  · intro env opts start oracle s m b
    rfl

/-! ### Helper lemmas about the filesystem tree -/

theorem findEntry_eraseKey_ne (a b : String) (h : ¬ b = a)
    (cs : List (String × FsNode)) : findEntry b (eraseKey a cs) = findEntry b cs := by
  induction cs with
  | nil => rfl
  | cons e es ih =>
    by_cases he : e.1 = a
    · have hb : ¬ e.1 = b := by rw [he]; exact fun hh => h hh.symm
      simp only [eraseKey, if_pos he, findEntry, if_neg hb, ih]
    · simp only [eraseKey, if_neg he, findEntry, ih]

theorem findEntry_map_update (a : String) (g : FsNode → FsNode)
    (cs : List (String × FsNode)) :
    findEntry a (cs.map fun e => if e.1 = a then (e.1, g e.2) else e) =
      (findEntry a cs).map g := by
  induction cs with
  | nil => rfl
  | cons e es ih =>
    by_cases he : e.1 = a
    · simp only [List.map, if_pos he, findEntry, he, if_pos, Option.map]
    · simp only [List.map, if_neg he, findEntry, ih]

theorem findEntry_map_update_ne (a b : String) (h : ¬ b = a) (g : FsNode → FsNode)
    (cs : List (String × FsNode)) :
    findEntry b (cs.map fun e => if e.1 = a then (e.1, g e.2) else e) =
      findEntry b cs := by
  induction cs with
  | nil => rfl
  | cons e es ih =>
    by_cases he : e.1 = a
    · have hb : ¬ e.1 = b := by rw [he]; exact fun hh => h hh.symm
      simp only [List.map, if_pos he, findEntry, if_neg hb, ih]
    · by_cases hb : e.1 = b
      · simp only [List.map, if_neg he, findEntry, if_pos hb]
      · simp only [List.map, if_neg he, findEntry, if_neg hb, ih]

theorem mem_eraseKey (a : String) (cs : List (String × FsNode)) (e : String × FsNode)
    (h : e ∈ eraseKey a cs) : e ∈ cs ∧ ¬ e.1 = a := by
  induction cs with
  | nil => exact absurd h (List.not_mem_nil e)
  | cons x xs ih =>
    by_cases hx : x.1 = a
    · rw [eraseKey, if_pos hx] at h
      exact ⟨List.mem_cons_of_mem x (ih h).1, (ih h).2⟩
    · rw [eraseKey, if_neg hx] at h
      rcases List.mem_cons.mp h with h1 | h1
      · exact ⟨List.mem_cons.mpr (Or.inl h1), by rw [h1]; exact hx⟩
      · exact ⟨List.mem_cons_of_mem x (ih h1).1, (ih h1).2⟩

theorem foldl_eraseKey_nil :
    ∀ (names : List String) (cs : List (String × FsNode)),
      (∀ e ∈ cs, e.1 ∈ names) →
      names.foldl (fun acc f => eraseKey f acc) cs = []
  | [], cs, h => by
    cases cs with
    | nil => rfl
    | cons e es => exact absurd (h e (List.mem_cons_self e es)) (List.not_mem_nil e.1)
  | f :: rest, cs, h => by
    rw [List.foldl_cons]
    apply foldl_eraseKey_nil rest
    intro e he
    obtain ⟨hin, hne⟩ := mem_eraseKey f cs e he
    rcases List.mem_cons.mp (h e hin) with h1 | h1
    · exact absurd h1 hne
    · exact h1

theorem removeNode_cons (a : String) (q : List String) (hq : q ≠ [])
    (cs : List (String × FsNode)) :
    removeNode (.dir cs) (a :: q) =
      .dir (cs.map fun e => if e.1 = a then (e.1, removeNode e.2 q) else e) := by
  cases q with
  | nil => exact absurd rfl hq
  | cons b rest => rfl

theorem lookupNode_append (q : List String) :
    ∀ (p : List String) (t : FsNode),
      lookupNode t (p ++ q) = (lookupNode t p).bind fun u => lookupNode u q
  | [], t => by cases t <;> rfl
  | a :: p, t => by
    cases t with
    | file => rfl
    | dir cs =>
      show lookupNode (.dir cs) (a :: (p ++ q)) = _
      cases hf : findEntry a cs with
      | none => simp [lookupNode, hf]
      | some u => simp [lookupNode, hf, lookupNode_append q p u]

theorem lookupNode_removeNode_child (f : String) :
    ∀ (r : List String) (t : FsNode) (cs : List (String × FsNode)),
      lookupNode t r = some (.dir cs) →
      lookupNode (removeNode t (r ++ [f])) r = some (.dir (eraseKey f cs))
  | [], t, cs, h => by
    cases t with
    | file => exact absurd h (fun hh => FsNode.noConfusion (Option.some.inj hh))
    | dir cs2 =>
      have ht : FsNode.dir cs2 = .dir cs := Option.some.inj h
      rw [ht]
      rfl
  | a :: r, t, cs, h => by
    cases t with
    | file => exact absurd h (by rw [lookupNode]; exact fun hh => Option.noConfusion hh)
    | dir cs2 =>
      rw [lookupNode] at h
      cases hf : findEntry a cs2 with
      | none => rw [hf] at h; exact absurd h (fun hh => Option.noConfusion hh)
      | some u =>
        rw [hf] at h
        rw [show (a :: r) ++ [f] = a :: (r ++ [f]) from rfl,
          removeNode_cons a (r ++ [f]) (by simp) cs2, lookupNode,
          findEntry_map_update a (fun n => removeNode n (r ++ [f])) cs2, hf]
        exact lookupNode_removeNode_child f r u cs h

theorem ancestorOf_cons (a : String) (p q : List String) :
    ancestorOf (a :: p) (a :: q) ↔ ancestorOf p q := by
  constructor
  · rintro ⟨u, hu⟩
    exact ⟨u, (List.cons.inj hu).2⟩
  · rintro ⟨u, hu⟩
    exact ⟨u, by rw [List.cons_append, hu]⟩

theorem ancestorOf_length (p q : List String) (h : ancestorOf p q) :
    p.length ≤ q.length := by
  obtain ⟨u, hu⟩ := h
  rw [← hu, List.length_append]
  omega

theorem concat_cases (u : List String) : u = [] ∨ ∃ v a, u = v ++ [a] := by
  induction u with
  | nil => exact Or.inl rfl
  | cons x xs ih =>
    rcases ih with h | ⟨v, a, hva⟩
    · exact Or.inr ⟨[], x, by rw [h]; rfl⟩
    · exact Or.inr ⟨x :: v, a, by rw [hva]; rfl⟩

theorem ancestorOf_snoc_elim (r p : List String) (f : String)
    (h : ancestorOf r (p ++ [f])) : ancestorOf r p ∨ r = p ++ [f] := by
  obtain ⟨u, hu⟩ := h
  rcases concat_cases u with h1 | ⟨v, a, hva⟩
  · rw [h1, List.append_nil] at hu
    exact Or.inr hu
  · rw [hva, ← List.append_assoc] at hu
    have := List.append_inj' hu rfl
    exact Or.inl ⟨v, this.1⟩

theorem ancestorOf_of_snoc_ancestor (r r2 : List String) (f : String)
    (h : ancestorOf (r ++ [f]) r2) : ancestorOf r r2 ∧ ¬ r = r2 := by
  obtain ⟨u, hu⟩ := h
  constructor
  · exact ⟨[f] ++ u, by rw [← List.append_assoc, hu]⟩
  · intro he
    have hlen := ancestorOf_length (r ++ [f]) r2 ⟨u, hu⟩
    rw [← he, List.length_append] at hlen
    simp at hlen

theorem lookupNode_removeNode_incomp :
    ∀ (q r : List String) (t : FsNode),
      ¬ ancestorOf q r → ¬ ancestorOf r q →
      lookupNode (removeNode t q) r = lookupNode t r
  | [], r, t, h1, _ => absurd ⟨r, rfl⟩ h1
  | _ :: _, [], _, _, h2 => absurd ⟨_, rfl⟩ h2
  | a :: q, b :: r, t, h1, h2 => by
    cases t with
    | file => rfl
    | dir cs =>
      by_cases hab : a = b
      · subst hab
        have hq : q ≠ [] := by
          intro hq
          exact h1 (by rw [hq]; exact ⟨r, rfl⟩)
        rw [removeNode_cons a q hq cs, lookupNode, lookupNode,
          findEntry_map_update a (fun n => removeNode n q) cs]
        cases hf : findEntry a cs with
        | none => rfl
        | some u =>
          show lookupNode (removeNode u q) r = lookupNode u r
          exact lookupNode_removeNode_incomp q r u
            (fun hh => h1 ((ancestorOf_cons a q r).mpr hh))
            (fun hh => h2 ((ancestorOf_cons a r q).mpr hh))
      · cases hq0 : q with
        | nil =>
          rw [show removeNode (.dir cs) [a] = .dir (eraseKey a cs) from rfl,
            lookupNode, lookupNode,
            findEntry_eraseKey_ne a b (fun hh => hab hh.symm) cs]
        | cons x xs =>
          rw [← hq0, removeNode_cons a q (by rw [hq0]; simp) cs, lookupNode, lookupNode,
            findEntry_map_update_ne a b (fun hh => hab hh.symm)
              (fun n => removeNode n q) cs]

/-! ### Helper lemmas about emptyDirectory -/

theorem resolve_join (s : FsState) (p : GoPath) (f : String) :
    resolve s (filepathJoin p f) = resolve s p ++ [f] := by
  unfold resolve filepathJoin
  by_cases h : p.isAbs
  · simp [h]
  · simp [h, List.append_assoc]

theorem resolve_eq_of_wd (s s2 : FsState) (p : GoPath) (h : s2.wd = s.wd) :
    resolve s2 p = resolve s p := by
  unfold resolve
  rw [h]

theorem removeAllFs_not_stuck (s : FsState) (p : GoPath)
    (h : resolve s p ∉ s.stuck) :
    removeAllFs s p = (.ok (), { s with root := removeNode s.root (resolve s p) }) := by
  unfold removeAllFs
  rw [if_neg h]

theorem removeAllFs_stuck (s : FsState) (p : GoPath)
    (h : resolve s p ∈ s.stuck) :
    removeAllFs s p = (.error "removeAll failed", s) := by
  unfold removeAllFs
  rw [if_pos h]

theorem emptyDirLoop_wd_stuck (dirPath : GoPath) :
    ∀ (names : List String) (s : FsState),
      (emptyDirLoop dirPath s names).2.wd = s.wd ∧
      (emptyDirLoop dirPath s names).2.stuck = s.stuck
  | [], _ => ⟨rfl, rfl⟩
  | f :: rest, s => by
    rw [emptyDirLoop]
    by_cases hst : resolve s (filepathJoin dirPath f) ∈ s.stuck
    · rw [removeAllFs_stuck s (filepathJoin dirPath f) hst]
      exact ⟨rfl, rfl⟩
    · rw [removeAllFs_not_stuck s (filepathJoin dirPath f) hst]
      exact emptyDirLoop_wd_stuck dirPath rest _

theorem emptyDirLoop_ok_char (dirPath : GoPath) :
    ∀ (names : List String) (s : FsState) (r : List String) (cs : List (String × FsNode)),
      resolve s dirPath = r →
      lookupNode s.root r = some (.dir cs) →
      (∀ f ∈ names, r ++ [f] ∉ s.stuck) →
      (emptyDirLoop dirPath s names).1 = .ok () ∧
      lookupNode (emptyDirLoop dirPath s names).2.root r =
        some (.dir (names.foldl (fun acc f => eraseKey f acc) cs))
  | [], s, r, cs, _, hl, _ => ⟨rfl, hl⟩
  | f :: rest, s, r, cs, hr, hl, hstuck => by
    have hres : resolve s (filepathJoin dirPath f) = r ++ [f] := by
      rw [resolve_join, hr]
    have hnot : resolve s (filepathJoin dirPath f) ∉ s.stuck := by
      rw [hres]
      exact hstuck f (List.mem_cons_self f rest)
    rw [emptyDirLoop, removeAllFs_not_stuck s (filepathJoin dirPath f) hnot, hres]
    exact emptyDirLoop_ok_char dirPath rest _ r (eraseKey f cs) hr
      (lookupNode_removeNode_child f r s.root cs hl)
      (fun g hg => hstuck g (List.mem_cons_of_mem f hg))

theorem emptyDirLoop_ok_destruct (dirPath : GoPath) :
    ∀ (names : List String) (s s1 : FsState) (u : Unit) (r : List String)
      (cs : List (String × FsNode)),
      emptyDirLoop dirPath s names = (.ok u, s1) →
      resolve s dirPath = r →
      lookupNode s.root r = some (.dir cs) →
      lookupNode s1.root r =
        some (.dir (names.foldl (fun acc f => eraseKey f acc) cs))
  | [], s, s1, u, r, cs, h, _, hl => by
    have hs : s = s1 := congrArg Prod.snd h
    rw [← hs]
    exact hl
  | f :: rest, s, s1, u, r, cs, h, hr, hl => by
    have hres : resolve s (filepathJoin dirPath f) = r ++ [f] := by
      rw [resolve_join, hr]
    by_cases hst : resolve s (filepathJoin dirPath f) ∈ s.stuck
    · rw [emptyDirLoop, removeAllFs_stuck s (filepathJoin dirPath f) hst] at h
      exact absurd (congrArg Prod.fst h) (fun hh => Except.noConfusion hh)
    · rw [emptyDirLoop, removeAllFs_not_stuck s (filepathJoin dirPath f) hst, hres] at h
      exact emptyDirLoop_ok_destruct dirPath rest _ s1 u r (eraseKey f cs) h hr
        (lookupNode_removeNode_child f r s.root cs hl)

theorem emptyDirLoop_error_char (dirPath : GoPath) :
    ∀ (pre : List String) (c : String) (post : List String) (s : FsState)
      (r : List String) (cs : List (String × FsNode)),
      resolve s dirPath = r →
      lookupNode s.root r = some (.dir cs) →
      (∀ f ∈ pre, r ++ [f] ∉ s.stuck) →
      (r ++ [c]) ∈ s.stuck →
      (emptyDirLoop dirPath s (pre ++ c :: post)).1 = .error "removeAll failed" ∧
      lookupNode (emptyDirLoop dirPath s (pre ++ c :: post)).2.root r =
        some (.dir (pre.foldl (fun acc f => eraseKey f acc) cs))
  | [], c, post, s, r, cs, hr, hl, _, hc => by
    have hres : resolve s (filepathJoin dirPath c) = r ++ [c] := by
      rw [resolve_join, hr]
    rw [List.nil_append, emptyDirLoop,
      removeAllFs_stuck s (filepathJoin dirPath c) (by rw [hres]; exact hc)]
    exact ⟨rfl, hl⟩
  | f :: pre, c, post, s, r, cs, hr, hl, hpre, hc => by
    have hres : resolve s (filepathJoin dirPath f) = r ++ [f] := by
      rw [resolve_join, hr]
    have hnot : resolve s (filepathJoin dirPath f) ∉ s.stuck := by
      rw [hres]
      exact hpre f (List.mem_cons_self f pre)
    rw [List.cons_append, emptyDirLoop,
      removeAllFs_not_stuck s (filepathJoin dirPath f) hnot, hres]
    exact emptyDirLoop_error_char dirPath pre c post _ r (eraseKey f cs) hr
      (lookupNode_removeNode_child f r s.root cs hl)
      (fun g hg => hpre g (List.mem_cons_of_mem f hg)) hc

theorem emptyDirLoop_preserve (dirPath : GoPath) :
    ∀ (names : List String) (s : FsState) (r r2 : List String),
      resolve s dirPath = r →
      ¬ (ancestorOf r r2 ∧ ¬ r = r2) →
      ¬ ancestorOf r2 r →
      lookupNode (emptyDirLoop dirPath s names).2.root r2 = lookupNode s.root r2
  | [], _, _, _, _, _, _ => rfl
  | f :: rest, s, r, r2, hr, h1, h2 => by
    have hres : resolve s (filepathJoin dirPath f) = r ++ [f] := by
      rw [resolve_join, hr]
    rw [emptyDirLoop]
    by_cases hst : resolve s (filepathJoin dirPath f) ∈ s.stuck
    · rw [removeAllFs_stuck s (filepathJoin dirPath f) hst]
    · rw [removeAllFs_not_stuck s (filepathJoin dirPath f) hst, hres]
      have hinc1 : ¬ ancestorOf (r ++ [f]) r2 := by
        intro hh
        exact h1 (ancestorOf_of_snoc_ancestor r r2 f hh)
      have hinc2 : ¬ ancestorOf r2 (r ++ [f]) := by
        intro hh
        rcases ancestorOf_snoc_elim r2 r f hh with ha | ha
        · exact h2 ha
        · exact h1 (by
            rw [ha]
            exact ⟨⟨[f], rfl⟩,
              (ancestorOf_of_snoc_ancestor r (r ++ [f]) f ⟨[], List.append_nil _⟩).2⟩)
      have hrec := emptyDirLoop_preserve dirPath rest
        { s with root := removeNode s.root (r ++ [f]) } r r2 hr h1 h2
      have hrm := lookupNode_removeNode_incomp (r ++ [f]) r2 s.root hinc1 hinc2
      exact hrec.trans hrm

theorem readDir_of_dir (s : FsState) (p : GoPath) (r : List String)
    (cs : List (String × FsNode)) (hr : resolve s p = r)
    (h : lookupNode s.root r = some (.dir cs)) :
    readDir s p = .ok (cs.map Prod.fst) := by
  unfold readDir
  rw [hr, h]

theorem readDir_err (s : FsState) (p : GoPath)
    (h : ∀ cs, ¬ lookupNode s.root (resolve s p) = some (.dir cs)) :
    readDir s p = .error "readDir failed" := by
  unfold readDir
  cases hlk : lookupNode s.root (resolve s p) with
  | none => rfl
  | some node =>
    cases node with
    | file => rfl
    | dir cs => exact absurd hlk (h cs)

theorem emptyDirectory_ok_char (s : FsState) (dirPath : GoPath)
    (cs : List (String × FsNode))
    (hl : lookupNode s.root (resolve s dirPath) = some (.dir cs))
    (hstuck : ∀ f ∈ cs.map Prod.fst, resolve s dirPath ++ [f] ∉ s.stuck) :
    (emptyDirectory s dirPath).1 = .ok () ∧
    lookupNode (emptyDirectory s dirPath).2.root (resolve s dirPath) = some (.dir []) := by
  unfold emptyDirectory
  rw [readDir_of_dir s dirPath (resolve s dirPath) cs rfl hl]
  have h := emptyDirLoop_ok_char dirPath (cs.map Prod.fst) s (resolve s dirPath) cs rfl
    hl hstuck
  rw [foldl_eraseKey_nil (cs.map Prod.fst) cs
    (fun e he => List.mem_map_of_mem Prod.fst he)] at h
  exact h

theorem emptyDirectory_err (s : FsState) (dirPath : GoPath)
    (h : ∀ cs, ¬ lookupNode s.root (resolve s dirPath) = some (.dir cs)) :
    emptyDirectory s dirPath = (.error "readDir failed", s) := by
  unfold emptyDirectory
  rw [readDir_err s dirPath h]

theorem emptyDirectory_empty_dir (s : FsState) (p : GoPath)
    (hl : lookupNode s.root (resolve s p) = some (.dir [])) :
    emptyDirectory s p = (.ok (), s) := by
  unfold emptyDirectory
  rw [readDir_of_dir s p (resolve s p) [] rfl hl]
  rfl

theorem emptyDirectory_ok_destruct (s s1 : FsState) (p : GoPath) (u : Unit)
    (h : emptyDirectory s p = (.ok u, s1)) :
    (∃ cs, lookupNode s.root (resolve s p) = some (.dir cs)) ∧
    lookupNode s1.root (resolve s p) = some (.dir []) ∧
    s1.wd = s.wd ∧ s1.stuck = s.stuck := by
  unfold emptyDirectory at h
  cases hlk : lookupNode s.root (resolve s p) with
  | none =>
    rw [readDir_err s p (by rw [hlk]; exact fun cs hh => Option.noConfusion hh)] at h
    exact absurd (congrArg Prod.fst h) (fun hh => Except.noConfusion hh)
  | some node =>
    cases node with
    | file =>
      rw [readDir_err s p
        (by rw [hlk]; exact fun cs hh => FsNode.noConfusion (Option.some.inj hh))] at h
      exact absurd (congrArg Prod.fst h) (fun hh => Except.noConfusion hh)
    | dir cs =>
      rw [readDir_of_dir s p (resolve s p) cs rfl hlk] at h
      have hfin := emptyDirLoop_ok_destruct p (cs.map Prod.fst) s s1 u (resolve s p) cs h
        rfl hlk
      rw [foldl_eraseKey_nil (cs.map Prod.fst) cs
        (fun e he => List.mem_map_of_mem Prod.fst he)] at hfin
      have hs1 : (emptyDirLoop p s (cs.map Prod.fst)).2 = s1 := congrArg Prod.snd h
      have hws := emptyDirLoop_wd_stuck p (cs.map Prod.fst) s
      rw [hs1] at hws
      exact ⟨⟨cs, hlk ▸ rfl⟩, hfin, hws.1, hws.2⟩

theorem emptyDirectory_preserve (s : FsState) (dirPath : GoPath) (r2 : List String)
    (h1 : ¬ (ancestorOf (resolve s dirPath) r2 ∧ ¬ resolve s dirPath = r2))
    (h2 : ¬ ancestorOf r2 (resolve s dirPath)) :
    lookupNode (emptyDirectory s dirPath).2.root r2 = lookupNode s.root r2 := by
  unfold emptyDirectory
  cases hrd : readDir s dirPath with
  | error e => rfl
  | ok names =>
    exact emptyDirLoop_preserve dirPath names s (resolve s dirPath) r2 rfl h1 h2

/-! ### Claim theorems for truncation -/

/-- Claim C5: serveTruncate empties the repo directory first and the index
directory second; a failed repo emptying is answered 500 with a body naming
repoDir and the index directory is not attempted — the final state is exactly
the state the failed repo emptying left, so children already removed are not
restored; a failed index emptying after a successful repo emptying is
answered 500 naming indexDir; success of both is answered 200 with empty
body. -/
theorem serveTruncate_ordering_and_errors :
    (∀ (opts : Options) (s s1 : FsState) (e : String),
        emptyDirectory s opts.repoDir = (.error e, s1) →
        serveTruncate opts s = (⟨500, "Failed to delete repoDir"⟩, s1))
    ∧ (∀ (opts : Options) (s s1 s2 : FsState) (u : Unit) (e : String),
        emptyDirectory s opts.repoDir = (.ok u, s1) →
        emptyDirectory s1 opts.indexDir = (.error e, s2) →
        serveTruncate opts s = (⟨500, "Failed to delete indexDir"⟩, s2))
    ∧ (∀ (opts : Options) (s s1 s2 : FsState) (u u2 : Unit),
        emptyDirectory s opts.repoDir = (.ok u, s1) →
        emptyDirectory s1 opts.indexDir = (.ok u2, s2) →
        serveTruncate opts s = (⟨200, ""⟩, s2)) := by
  refine ⟨?_, ?_, ?_⟩
  · intro opts s s1 e h
    simp only [serveTruncate, h]
  · intro opts s s1 s2 u e h1 h2
    simp only [serveTruncate, h1, h2]
  · intro opts s s1 s2 u u2 h1 h2
    simp only [serveTruncate, h1, h2]

/-- Witness for C5: with both managed directories present and non-empty, the
truncate handler answers 200. -/
theorem serveTruncate_ordering_and_errors_witness :
    (serveTruncate ⟨0, ⟨true, ["index"]⟩, ⟨true, ["repo"]⟩⟩
        ⟨.dir [("repo", .dir [("a", .file)]), ("index", .dir [("x", .file)])],
          [], []⟩).1 = ⟨200, ""⟩ := by
  have h := serveTruncate_ordering_and_errors.2.2
    ⟨0, ⟨true, ["index"]⟩, ⟨true, ["repo"]⟩⟩
    ⟨.dir [("repo", .dir [("a", .file)]), ("index", .dir [("x", .file)])], [], []⟩
    _ _ () () rfl rfl
  rw [h]

/-- Claim C6: on an existing directory whose children are all removable,
emptyDirectory removes every immediate child — subtrees included — without
deleting the directory itself and returns ok; on a path that does not name an
existing directory the listing fails and an error is returned with the state
unchanged; when the removal of some child fails, an error is returned and the
children removed before the failure stay removed. -/
theorem emptyDirectory_spec :
    (∀ (s : FsState) (dirPath : GoPath) (cs : List (String × FsNode)),
        lookupNode s.root (resolve s dirPath) = some (.dir cs) →
        (∀ f ∈ cs.map Prod.fst, resolve s dirPath ++ [f] ∉ s.stuck) →
        (emptyDirectory s dirPath).1 = .ok () ∧
        lookupNode (emptyDirectory s dirPath).2.root (resolve s dirPath) =
          some (.dir []))
    ∧ (∀ (s : FsState) (dirPath : GoPath),
        (∀ cs, ¬ lookupNode s.root (resolve s dirPath) = some (.dir cs)) →
        emptyDirectory s dirPath = (.error "readDir failed", s))
    ∧ (∀ (s : FsState) (dirPath : GoPath) (cs : List (String × FsNode))
        (pre : List String) (c : String) (post : List String),
        lookupNode s.root (resolve s dirPath) = some (.dir cs) →
        cs.map Prod.fst = pre ++ c :: post →
        (∀ f ∈ pre, resolve s dirPath ++ [f] ∉ s.stuck) →
        (resolve s dirPath ++ [c]) ∈ s.stuck →
        (emptyDirectory s dirPath).1 = .error "removeAll failed" ∧
        lookupNode (emptyDirectory s dirPath).2.root (resolve s dirPath) =
          some (.dir (pre.foldl (fun acc f => eraseKey f acc) cs))) := by
  refine ⟨?_, ?_, ?_⟩
  · intro s dirPath cs hl hstuck
    exact emptyDirectory_ok_char s dirPath cs hl hstuck
  · intro s dirPath h
    exact emptyDirectory_err s dirPath h
  · intro s dirPath cs pre c post hl hkeys hpre hc
    unfold emptyDirectory
    rw [readDir_of_dir s dirPath (resolve s dirPath) cs rfl hl, hkeys]
    exact emptyDirLoop_error_char dirPath pre c post s (resolve s dirPath) cs rfl hl
      hpre hc

/-- Witness for C6: a directory holding files a, b and a subdirectory c with
a child d2 is left existing but empty, with result ok. -/
theorem emptyDirectory_spec_witness :
    (emptyDirectory ⟨.dir [("d", .dir [("a", .file), ("b", .file),
        ("c", .dir [("d2", .file)])])], [], []⟩ ⟨true, ["d"]⟩).1 = .ok () ∧
    lookupNode (emptyDirectory ⟨.dir [("d", .dir [("a", .file), ("b", .file),
        ("c", .dir [("d2", .file)])])], [], []⟩ ⟨true, ["d"]⟩).2.root ["d"] =
      some (.dir []) :=
  emptyDirectory_spec.1
    ⟨.dir [("d", .dir [("a", .file), ("b", .file), ("c", .dir [("d2", .file)])])], [], []⟩
    ⟨true, ["d"]⟩ [("a", .file), ("b", .file), ("c", .dir [("d2", .file)])] rfl
    (fun _ _ h => List.not_mem_nil _ h)

/-- Counterexample for C8: with the index directory a proper ancestor of the
repo directory (repoDir /d/repos, indexDir /d — a layout the flags allow), a
first truncate succeeds with 200 but removes the repo directory while
emptying the index directory, so an immediately repeated truncate fails with
500 naming repoDir. -/
theorem truncate_not_idempotent_nested_dirs :
    (serveTruncate ⟨0, ⟨true, ["d"]⟩, ⟨true, ["d", "repos"]⟩⟩
        ⟨.dir [("d", .dir [("repos", .dir [])])], [], []⟩).1 = ⟨200, ""⟩ ∧
    (serveTruncate ⟨0, ⟨true, ["d"]⟩, ⟨true, ["d", "repos"]⟩⟩
        (serveTruncate ⟨0, ⟨true, ["d"]⟩, ⟨true, ["d", "repos"]⟩⟩
          ⟨.dir [("d", .dir [("repos", .dir [])])], [], []⟩).2).1 =
      ⟨500, "Failed to delete repoDir"⟩ :=
  ⟨rfl, rfl⟩

/-- Claim C8 as amended: provided the index directory is not a proper
ancestor of the repo directory (in particular in the default layout, where
the two are siblings), truncation is idempotent: whenever a first truncate
succeeds with 200, an immediate second truncate also succeeds with 200 and
leaves the state unchanged. -/
theorem truncate_idempotent_unnested (opts : Options) (s s1 : FsState)
    (hnest : ¬ (ancestorOf (resolve s opts.indexDir) (resolve s opts.repoDir) ∧
        ¬ resolve s opts.indexDir = resolve s opts.repoDir))
    (h : serveTruncate opts s = (⟨200, ""⟩, s1)) :
    serveTruncate opts s1 = (⟨200, ""⟩, s1) := by
  unfold serveTruncate at h
  rcases h1 : emptyDirectory s opts.repoDir with ⟨res1, sa⟩
  rw [h1] at h
  cases res1 with
  | error e => simp at h
  | ok u =>
    dsimp only at h
    rcases h2 : emptyDirectory sa opts.indexDir with ⟨res2, sb⟩
    rw [h2] at h
    cases res2 with
    | error e => simp at h
    | ok u2 =>
      have hsb : sb = s1 := congrArg Prod.snd h
      subst hsb
      obtain ⟨⟨csR, hlkR⟩, hRafter, hwdA, hstA⟩ :=
        emptyDirectory_ok_destruct s sa opts.repoDir u h1
      obtain ⟨⟨csI, hlkI⟩, hIafter, hwdB, hstB⟩ :=
        emptyDirectory_ok_destruct sa sb opts.indexDir u2 h2
      have hResA : ∀ p, resolve sa p = resolve s p :=
        fun p => resolve_eq_of_wd s sa p hwdA
      have hResB : ∀ p, resolve sb p = resolve sa p :=
        fun p => resolve_eq_of_wd sa sb p hwdB
      have hIfinal : lookupNode sb.root (resolve s opts.indexDir) = some (.dir []) := by
        rw [hResA] at hIafter
        exact hIafter
      have hRfinal : lookupNode sb.root (resolve s opts.repoDir) = some (.dir []) := by
        by_cases hEq : resolve s opts.indexDir = resolve s opts.repoDir
        · rw [← hEq]
          exact hIfinal
        · by_cases hRA : ancestorOf (resolve s opts.repoDir) (resolve s opts.indexDir)
          · exfalso
            obtain ⟨suf, hsuf⟩ := hRA
            cases hsuf0 : suf with
            | nil =>
              rw [hsuf0, List.append_nil] at hsuf
              exact hEq hsuf.symm
            | cons x xs =>
              have hnone : lookupNode sa.root (resolve s opts.repoDir ++ suf) = none := by
                rw [hsuf0, lookupNode_append (x :: xs) (resolve s opts.repoDir) sa.root,
                  hRafter]
                rfl
              rw [hsuf] at hnone
              rw [hResA, hnone] at hlkI
              exact Option.noConfusion hlkI
          · have hc1 : ¬ (ancestorOf (resolve sa opts.indexDir) (resolve s opts.repoDir) ∧
                ¬ resolve sa opts.indexDir = resolve s opts.repoDir) := by
              rw [hResA]
              exact hnest
            have hc2 : ¬ ancestorOf (resolve s opts.repoDir) (resolve sa opts.indexDir) := by
              rw [hResA]
              exact hRA
            have hpres := emptyDirectory_preserve sa opts.indexDir
              (resolve s opts.repoDir) hc1 hc2
            rw [h2] at hpres
            exact hpres.trans hRafter
      have e1 : emptyDirectory sb opts.repoDir = (.ok (), sb) := by
        apply emptyDirectory_empty_dir
        rw [hResB, hResA]
        exact hRfinal
      have e2 : emptyDirectory sb opts.indexDir = (.ok (), sb) := by
        apply emptyDirectory_empty_dir
        rw [hResB, hResA]
        exact hIfinal
      simp only [serveTruncate, e1, e2]

/-- Witness for C8 (amended): sibling directories /repo and /index; the first
truncate removes the file under /repo and succeeds, and the second truncate
succeeds as well, leaving the state unchanged. -/
theorem truncate_idempotent_unnested_witness :
    serveTruncate ⟨0, ⟨true, ["index"]⟩, ⟨true, ["repo"]⟩⟩
        ⟨.dir [("repo", .dir []), ("index", .dir [])], [], []⟩ =
      (⟨200, ""⟩, ⟨.dir [("repo", .dir []), ("index", .dir [])], [], []⟩) :=
  truncate_idempotent_unnested ⟨0, ⟨true, ["index"]⟩, ⟨true, ["repo"]⟩⟩
    ⟨.dir [("repo", .dir [("a", .file)]), ("index", .dir [])], [], []⟩
    ⟨.dir [("repo", .dir []), ("index", .dir [])], [], []⟩
    (by rintro ⟨⟨u, hu⟩, -⟩; exact absurd (List.cons.inj hu).1 (by decide))
    rfl

end ZoektDynamicIndexServer
